import Mathlib

/-!
Verification of the capa-iam-controller reconciliation core.

The definitions below are a shallow embedding of the Go source:
* `key.go` (`GetAWSClusterByName`),
* the `AWSMachineTemplateReconciler` (`reconcileDelete`, `removeFinalizer`,
  `maxPatchRetries`),
* the `AWSManagedControlPlaneReconciler.Reconcile` body,
* the call sequence asserted by the `SecretReconciler` controller test.

IAM calls and Kubernetes object-store calls are effects; each embedded
reconcile function takes the outcome of every remote call as an explicit
parameter (mirroring the Go code reading the result of each call) and returns
the error it surfaces together with the ordered list of successful mutating
events it performed.  Parts of the repository that are only visible through
the spec (the `pkg/iam` service internals and `isRoleUsedElsewhere`) are
modelled from the spec and marked as such in their doc comments.
-/

namespace CapaIam

/-- Outcome of a remote call that either succeeds or fails with a message. -/
inductive Outcome
  | ok
  | err (msg : String)
deriving DecidableEq, Repr

/-- Outcome of a remote `Get`-style call: found, absent, or failed. -/
inductive GetOutcome
  | found
  | notFound
  | errOther (msg : String)
deriving DecidableEq, Repr

/-- The result pair `(ctrl.Result, error)` of a reconcile, with
`RequeueAfter` in seconds (`0` meaning unset). -/
structure CtrlResult where
  requeue : Bool
  requeueAfterSeconds : Nat
deriving DecidableEq, Repr

/-- `ctrl.Result{}`: the zero result. -/
def emptyResult : CtrlResult := ⟨false, 0⟩

/-! ## `pkg/key` : `GetAWSClusterByName` (src/pkg/key/key.go) -/

/-- An `AWSCluster` object as far as `GetAWSClusterByName` consumes it. -/
structure AWSCluster where
  name : String
deriving DecidableEq, Repr

/-- Embedding of `GetAWSClusterByName` (src/pkg/key/key.go lines 24-39):
the label-selector `List` call has already produced `listRes`; the function
errors unless exactly one item matched, otherwise returns the unique item. -/
def GetAWSClusterByName (listRes : Except String (List AWSCluster)) :
    Except String AWSCluster :=
  match listRes with
  | .error e => .error e
  | .ok items =>
    if h : items.length = 1 then
      .ok (items.get ⟨0, by omega⟩)
    else
      .error ("expected 1 AWSCluster but found " ++ toString items.length)

/-! ## `removeFinalizer` (src/main.go lines 411-450) -/

/-- `maxPatchRetries` (src/main.go line 178). -/
def maxPatchRetries : Nat := 5

/-- Classification of one `patchHelper.Patch` call's result, following the
`k8serrors` reason taxonomy used by the source: `invalid` is HTTP 422
`StatusReasonInvalid` (what `k8serrors.IsInvalid` detects), `conflict` is the
optimistic-concurrency 409 `StatusReasonConflict`, `otherErr` is any other
failure. -/
inductive PatchOutcome
  | ok
  | invalid
  | conflict
  | otherErr (msg : String)
deriving DecidableEq, Repr

/-- `k8serrors.IsInvalid` on a patch outcome. -/
def PatchOutcome.isInvalid : PatchOutcome → Bool
  | .invalid => true
  | _ => false

/-- `err != nil` on a patch outcome. -/
def PatchOutcome.isErr : PatchOutcome → Bool
  | .ok => false
  | _ => true

/-- The error `removeFinalizer` surfaces: either the patch error itself or a
failure of the refetch `r.Get`. -/
inductive RFErr
  | patchFailed (e : PatchOutcome)
  | refetchFailed (msg : String)
deriving DecidableEq, Repr

/-- Observable result of one `removeFinalizer` run: the surfaced error (if
any), how many `Patch` calls were issued, and how many refetches (`r.Get`)
were issued. -/
structure RFRun where
  err : Option RFErr
  attempts : Nat
  refetches : Nat
deriving DecidableEq, Repr

/-- The `for i := 1; i <= maxPatchRetries; i++` loop of `removeFinalizer`
(src/main.go lines 417-447).  `patch i` is the outcome of the `Patch` call on
iteration `i`; `refetch i` is the outcome of the `r.Get` refetch on iteration
`i` (`none` = success).  `fuel` counts the remaining iterations, so the loop
is entered with `i = 1` and `fuel = maxPatchRetries`; running out of fuel is
the loop condition `i <= maxPatchRetries` failing, after which the function
returns `nil`. -/
def removeFinalizerLoop (patch : Nat → PatchOutcome) (refetch : Nat → Option String) :
    Nat → Nat → Nat → Nat → RFRun
  | _, 0, attempts, refetches => ⟨none, attempts, refetches⟩
  | i, fuel + 1, attempts, refetches =>
    let e := patch i
    if e.isInvalid ∧ i < maxPatchRetries then
      match refetch i with
      | some m => ⟨some (.refetchFailed m), attempts + 1, refetches⟩
      | none => removeFinalizerLoop patch refetch (i + 1) fuel (attempts + 1) (refetches + 1)
    else if e.isErr then
      ⟨some (.patchFailed e), attempts + 1, refetches⟩
    else
      removeFinalizerLoop patch refetch (i + 1) fuel (attempts + 1) refetches

/-- Embedding of `removeFinalizer` (src/main.go lines 411-450).  When the
object no longer carries the finalizer the function returns immediately
without patching; otherwise it runs the bounded retry loop. -/
def removeFinalizer (containsFinalizer : Bool) (patch : Nat → PatchOutcome)
    (refetch : Nat → Option String) : RFRun :=
  if containsFinalizer then
    removeFinalizerLoop patch refetch 1 maxPatchRetries 0 0
  else
    ⟨none, 0, 0⟩

/-- The loop never issues more `Patch` calls than it has fuel. -/
theorem removeFinalizerLoop_attempts_le (patch : Nat → PatchOutcome)
    (refetch : Nat → Option String) :
    ∀ i fuel attempts refetches,
      (removeFinalizerLoop patch refetch i fuel attempts refetches).attempts ≤
        attempts + fuel := by
  intro i fuel
  induction fuel generalizing i with
  | zero => intro attempts refetches; simp [removeFinalizerLoop]
  | succ n ih =>
    intro attempts refetches
    simp only [removeFinalizerLoop]
    split
    · cases refetch i with
      | some m => simp
      | none =>
        simp only []
        have := ih (i + 1) (attempts + 1) (refetches + 1)
        omega
    · split
      · simp
      · have := ih (i + 1) (attempts + 1) refetches
        omega

/-- The loop's refetch counter only grows. -/
theorem removeFinalizerLoop_refetches_ge (patch : Nat → PatchOutcome)
    (refetch : Nat → Option String) :
    ∀ i fuel attempts refetches,
      refetches ≤ (removeFinalizerLoop patch refetch i fuel attempts refetches).refetches := by
  intro i fuel
  induction fuel generalizing i with
  | zero => intro attempts refetches; simp [removeFinalizerLoop]
  | succ n ih =>
    intro attempts refetches
    simp only [removeFinalizerLoop]
    split
    · cases refetch i with
      | some m => simp
      | none =>
        simp only []
        have := ih (i + 1) (attempts + 1) (refetches + 1)
        omega
    · split
      · simp
      · exact ih (i + 1) (attempts + 1) refetches

/-! ## `AWSMachineTemplateReconciler.reconcileDelete` (src/main.go lines 280-339) -/

/-- The role-type strings of `pkg/iam`: `iam.ControlPlaneRole` and
`iam.BastionRole`, as dispatched on in the reconciler. -/
def ControlPlaneRole : String := "control-plane"

/-- `iam.BastionRole`. -/
def BastionRole : String := "bastion"

/-- Modelled from the spec: `isRoleUsedElsewhere` (called at src/main.go line
281, defined in a controller helper missing from src).  Per §4.5 of the spec
it reports whether the role name is still referenced by any *other* tracked
custom resource's spec; `others` is the list of IAM instance-profile names
declared by every tracked object other than the one being deleted. -/
def isRoleUsedElsewhere (others : List String) (roleName : String) : Bool :=
  others.contains roleName

/-- A successful mutating event performed by `reconcileDelete`, in program
order.  `removeFin` names which object's finalizer was removed
(`"awscluster"`, `"template"` or `"configmap"`). -/
inductive Ev
  | deleteRole (roleName : String)
  | deleteIRSARoles
  | removeFin (obj : String)
deriving DecidableEq, Repr

/-- Environment of one `reconcileDelete` run: the outcome of every remote
call the function makes, in source order. -/
structure DeleteEnv where
  /-- IAM instance-profile names referenced by the other tracked objects
  (input to the shared-resource guard). -/
  otherProfiles : List String
  /-- The `role` argument (`iam.ControlPlaneRole` or `iam.BastionRole`). -/
  roleType : String
  /-- The reconciler's `EnableRoute53Role` flag. -/
  enableRoute53 : Bool
  /-- Outcome of `iamService.DeleteRole()`. -/
  deleteRoleOut : Outcome
  /-- Outcome of `iamService.DeleteRolesForIRSA()`. -/
  deleteIRSAOut : Outcome
  /-- Outcome of `key.GetAWSClusterByName`. -/
  getClusterOut : Outcome
  /-- Outcome of `removeFinalizer` on the `AWSCluster`. -/
  rfClusterOut : Outcome
  /-- Outcome of `removeFinalizer` on the `AWSMachineTemplate`. -/
  rfTemplateOut : Outcome
  /-- Outcome of `r.Get` on the `<cluster>-cluster-values` ConfigMap. -/
  cmGetOut : GetOutcome
  /-- Outcome of `removeFinalizer` on the ConfigMap. -/
  rfCmOut : Outcome
deriving DecidableEq, Repr

/-- The tail of `reconcileDelete` after the role-deletion block
(src/main.go lines 300-338): remove the finalizer from the `AWSCluster`,
then from the `AWSMachineTemplate`, then fetch the cluster-values ConfigMap
(`client.IgnoreNotFound` turns its absence into a nil error) and remove its
finalizer. -/
def reconcileDeleteFinalizers (env : DeleteEnv) (evs : List Ev) :
    Except String Unit × List Ev :=
  match env.getClusterOut with
  | .err m => (.error m, evs)
  | .ok =>
    match env.rfClusterOut with
    | .err m => (.error m, evs)
    | .ok =>
      let evs := evs ++ [Ev.removeFin "awscluster"]
      match env.rfTemplateOut with
      | .err m => (.error m, evs)
      | .ok =>
        let evs := evs ++ [Ev.removeFin "template"]
        match env.cmGetOut with
        | .errOther m => (.error m, evs)
        | .notFound => (.ok (), evs)
        | .found =>
          match env.rfCmOut with
          | .err m => (.error m, evs)
          | .ok => (.ok (), evs ++ [Ev.removeFin "configmap"])

/-- Embedding of `AWSMachineTemplateReconciler.reconcileDelete`
(src/main.go lines 280-339) for an `AWSMachineTemplate` whose
`.Spec.Template.Spec.IAMInstanceProfile` is `profile`: consult the
shared-resource guard; if the role is unused, delete it (and, for a
control-plane role with the Route53 flag on, the IRSA roles), aborting on
the first error; then release the finalizers.  Returns the surfaced error
and the ordered successful mutating events. -/
def reconcileDelete (env : DeleteEnv) (profile : String) :
    Except String Unit × List Ev :=
  let roleUsed := isRoleUsedElsewhere env.otherProfiles profile
  if roleUsed then
    reconcileDeleteFinalizers env []
  else
    match env.deleteRoleOut with
    | .err m => (.error m, [])
    | .ok =>
      let evs := [Ev.deleteRole profile]
      if env.roleType = ControlPlaneRole ∧ env.enableRoute53 then
        match env.deleteIRSAOut with
        | .err m => (.error m, evs)
        | .ok => reconcileDeleteFinalizers env (evs ++ [Ev.deleteIRSARoles])
      else
        reconcileDeleteFinalizers env evs

/-- The remote IAM state reached from `roles` after the events `evs`:
`deleteRole` removes the named role, every other event leaves the remote
role set unchanged. -/
def applyEvs (roles : List String) : List Ev → List String
  | [] => roles
  | Ev.deleteRole n :: rest => applyEvs (roles.filter (· ≠ n)) rest
  | _ :: rest => applyEvs roles rest

/-- Count of `deleteRole` events in a trace. -/
def countDeleteRole (evs : List Ev) : Nat :=
  (evs.filter fun e =>
    match e with
    | Ev.deleteRole _ => true
    | _ => false).length

/-- Whether a trace contains a finalizer-removal event. -/
def hasRemoveFin (evs : List Ev) : Bool :=
  evs.any fun e =>
    match e with
    | Ev.removeFin _ => true
    | _ => false

/-! ## `pkg/iam` `DeleteRole` teardown (modelled from the spec) -/

/-- Result of one remote IAM teardown call. -/
inductive RemoteRes
  | ok
  | notFound
  | err (msg : String)
deriving DecidableEq, Repr

/-- Whether a teardown call outcome is a real failure (not-found is not). -/
def RemoteRes.isFailure : RemoteRes → Bool
  | .err _ => true
  | _ => false

/-- One teardown step: not-found is treated as success. -/
def teardownStep : RemoteRes → Except String Unit
  | .ok => .ok ()
  | .notFound => .ok ()
  | .err m => .error m

/-- Modelled from the spec: `pkg/iam` `DeleteRole(roleName)` (§4.3, missing
from src) — removes the inline policies, then detaches and deletes the
instance profile, then deletes the role; "not found" at every step is
success, any other remote failure aborts. -/
def DeleteRole (inlinePolicies instanceProfile role : RemoteRes) :
    Except String Unit :=
  match teardownStep inlinePolicies with
  | .error m => .error m
  | .ok _ =>
    match teardownStep instanceProfile with
    | .error m => .error m
    | .ok _ => teardownStep role

/-! ## `AWSManagedControlPlaneReconciler.Reconcile` (src/unnamed/part_000 lines 49-185) -/

/-- A successful mutating event of the managed-control-plane reconcile. -/
inductive MCPEv
  | deleteIRSARoles
  | removeFin
  | addFin
  | reconcileIRSA
deriving DecidableEq, Repr

/-- Environment of one `AWSManagedControlPlaneReconciler.Reconcile` run: the
fields of the fetched `AWSManagedControlPlane` the function reads, and the
outcome of every remote call, in source order. -/
structure MCPEnv where
  /-- Outcome of the initial `r.Get` of the `AWSManagedControlPlane`. -/
  getOut : GetOutcome
  /-- Result of `key.GetClusterIDFromLabels`. -/
  clusterIDOut : Except String String
  /-- Whether the CR carries the CAPI watch-filter label. -/
  hasWatchLabel : Bool
  /-- `.Spec.RoleName` (a `*string` in the source). -/
  roleName : Option String
  /-- Outcome of `key.GetAWSClusterRoleIdentity`. -/
  identityOut : Outcome
  /-- Outcome of `GetAWSClientSession`. -/
  sessionOut : Outcome
  /-- Outcome of `stsClient.GetCallerIdentity`. -/
  stsOut : Outcome
  /-- Outcome of `iam.New`. -/
  iamNewOut : Outcome
  /-- Whether `.DeletionTimestamp != nil`. -/
  deleting : Bool
  /-- Outcome of `iamService.DeleteRolesForIRSA()`. -/
  deleteIRSAOut : Outcome
  /-- Whether the CR carries the IRSA finalizer. -/
  hasFinalizer : Bool
  /-- Outcome of `patch.NewHelper`. -/
  patchHelperOut : Outcome
  /-- Outcome of `patchHelper.Patch`. -/
  patchOut : Outcome
  /-- Outcome of `getAWSAccountID`. -/
  accountIDOut : Outcome
  /-- Outcome of `iamService.GetIRSAOpenIDURlForEKS`. -/
  openIDOut : Outcome
  /-- Outcome of `iamService.GetRoleARN`. -/
  roleARNOut : Outcome
  /-- Outcome of `iamService.ReconcileRolesForIRSA`. -/
  reconcileIRSAOut : Outcome
deriving Repr

/-- The deletion branch of `AWSManagedControlPlaneReconciler.Reconcile`
(src/unnamed/part_000 lines 119-139): `DeleteRolesForIRSA` first, aborting
on error; only then, if the finalizer is present, patch it away (a patch
failure leaves the finalizer on the stored object and surfaces the error). -/
def mcpReconcileDelete (env : MCPEnv) :
    Except String CtrlResult × List MCPEv :=
  match env.deleteIRSAOut with
  | .err m => (.error m, [])
  | .ok =>
    let evs := [MCPEv.deleteIRSARoles]
    if env.hasFinalizer then
      match env.patchHelperOut with
      | .err m => (.error m, evs)
      | .ok =>
        match env.patchOut with
        | .err m => (.error m, evs)
        | .ok => (.ok ⟨true, 0⟩, evs ++ [MCPEv.removeFin])
    else
      (.ok ⟨true, 0⟩, evs)

/-- The normal branch of `AWSManagedControlPlaneReconciler.Reconcile`
(src/unnamed/part_000 lines 140-180): ensure the finalizer, then resolve
account ID, OIDC issuer URL and role ARN, then reconcile the IRSA roles. -/
def mcpReconcileNormal (env : MCPEnv) :
    Except String CtrlResult × List MCPEv :=
  let finStep : Except String Unit × List MCPEv :=
    if env.hasFinalizer then (.ok (), [])
    else
      match env.patchHelperOut with
      | .err m => (.error m, [])
      | .ok =>
        match env.patchOut with
        | .err m => (.error m, [])
        | .ok => (.ok (), [MCPEv.addFin])
  match finStep with
  | (.error m, evs) => (.error m, evs)
  | (.ok _, evs) =>
    match env.accountIDOut with
    | .err m => (.error m, evs)
    | .ok =>
      match env.openIDOut with
      | .err m => (.error m, evs)
      | .ok =>
        match env.roleARNOut with
        | .err m => (.error m, evs)
        | .ok =>
          match env.reconcileIRSAOut with
          | .err m => (.error m, evs)
          | .ok => (.ok ⟨true, 0⟩, evs ++ [MCPEv.reconcileIRSA])

/-- Embedding of `AWSManagedControlPlaneReconciler.Reconcile`
(src/unnamed/part_000 lines 49-185).  Returns the `(Result, error)` pair as
an `Except` (an error always accompanies the zero result in the source) and
the ordered successful mutating events.  In particular, when
`.Spec.RoleName` is nil the function returns success with
`Requeue: true, RequeueAfter: time.Minute` before any IAM client is even
constructed. -/
def mcpReconcile (env : MCPEnv) : Except String CtrlResult × List MCPEv :=
  match env.getOut with
  | .notFound => (.ok emptyResult, [])
  | .errOther m => (.error m, [])
  | .found =>
    match env.clusterIDOut with
    | .error m => (.error m, [])
    | .ok _ =>
      if env.hasWatchLabel then
        match env.roleName with
        | none => (.ok ⟨true, 60⟩, [])
        | some _ =>
          match env.identityOut with
          | .err m => (.error m, [])
          | .ok =>
            match env.sessionOut with
            | .err m => (.error m, [])
            | .ok =>
              match env.stsOut with
              | .err m => (.error m, [])
              | .ok =>
                match env.iamNewOut with
                | .err m => (.error m, [])
                | .ok =>
                  if env.deleting then mcpReconcileDelete env
                  else mcpReconcileNormal env
      else
        (.ok emptyResult, [])

/-- Whether a managed-control-plane trace contains the finalizer removal. -/
def mcpHasRemoveFin (evs : List MCPEv) : Bool :=
  evs.contains MCPEv.removeFin

/-! ## IRSA issuer rotation (modelled from the spec, §4.4) -/

/-- A trust-policy mutation on a workload-identity role, acting on the set
of OIDC issuer domains the role trusts. -/
inductive TrustOp
  | ensureIssuer (domain : String)
  | removeIssuer (domain : String)
deriving DecidableEq, Repr

/-- Apply one trust-policy mutation to the set of trusted issuer domains. -/
def applyTrustOp (s : List String) : TrustOp → List String
  | .ensureIssuer d => if d ∈ s then s else d :: s
  | .removeIssuer d => s.filter (· ≠ d)

/-- Modelled from the spec: the per-binding trust mutations of `pkg/iam`
`ReconcileRolesForIRSA(accountID, irsaDomain, oldIrsaDomain)` (called at
src/main.go line 394, body missing from src).  Per §4.4: first ensure the
trust policy includes the current issuer domain (steps 1-2); then, only if a
previous issuer domain is recorded and differs from the current one, remove
the trust statement referencing the old issuer (step 3). -/
def ReconcileRolesForIRSA (irsaDomain : String) (oldIrsaDomain : Option String) :
    List TrustOp :=
  TrustOp.ensureIssuer irsaDomain ::
    (match oldIrsaDomain with
     | some old => if old ≠ irsaDomain then [TrustOp.removeIssuer old] else []
     | none => [])

/-- All observed trust states along a run: the initial state followed by the
state after each mutation. -/
def trustStates (s0 : List String) (ops : List TrustOp) : List (List String) :=
  ops.scanl applyTrustOp s0

/-! ## `SecretReconciler` IRSA role creation (src/unnamed/part_001) -/

/-- A remote IAM API call, as asserted by the controller test's mock
expectations. -/
inductive IAMCall
  | getRole (name : String)
  | createRole (name trustDoc : String)
  | createInstanceProfile (name : String)
  | addRoleToInstanceProfile (name : String)
  | updateAssumeRolePolicy (name trustDoc : String)
  | listRolePolicies (name : String)
  | putRolePolicy (name policyName policyDoc : String)
deriving DecidableEq, Repr

/-- Whether a call is mutating (everything except the read calls). -/
def IAMCall.isMutating : IAMCall → Bool
  | .getRole _ => false
  | .listRolePolicies _ => false
  | _ => true

/-- Modelled from the spec and pinned by the controller test
(src/unnamed/part_001 lines 141-200): the exact call sequence the
`SecretReconciler` issues for one IRSA role binding when `GetRole` first
reports `NoSuchEntityException` — create the role with the desired trust
document, create and attach the instance profile, then (unconditionally)
`UpdateAssumeRolePolicy` with that same desired document, re-read the role,
list inline policies and put the permission policy. -/
def secretEnsureRoleCalls (name trustDoc policyName policyDoc : String) :
    List IAMCall :=
  [ .getRole name,
    .createRole name trustDoc,
    .createInstanceProfile name,
    .addRoleToInstanceProfile name,
    .updateAssumeRolePolicy name trustDoc,
    .getRole name,
    .listRolePolicies name,
    .putRolePolicy name policyName policyDoc ]

/-! ## Tag policy (modelled from the spec, §4.2; marker constants from
src/unnamed/part_001 lines 117-126) -/

/-- The ownership marker key, `capi-iam-controller/owned`. -/
def ownedTagKey : String := "capi-iam-controller/owned"

/-- The cluster-ownership marker key for a cluster name. -/
def clusterOwnedTagKey (clusterName : String) : String :=
  "sigs.k8s.io/cluster-api-provider-aws/cluster/" ++ clusterName

/-- Modelled from the spec: the tag policy of `pkg/iam` (§4.2, missing from
src) — the tag set is the ownership marker, the cluster-ownership marker and
the caller-supplied custom tags, with the two reserved marker keys never
overridden by a custom tag. -/
def iamTags (clusterName : String) (customTags : List (String × String)) :
    List (String × String) :=
  (ownedTagKey, "") ::
    (clusterOwnedTagKey clusterName, "owned") ::
      customTags.filter
        (fun t => t.1 ≠ ownedTagKey ∧ t.1 ≠ clusterOwnedTagKey clusterName)

/-- The value a tag list assigns to a key (first occurrence wins, matching a
remote tag map whose keys are unique). -/
def tagValue (k : String) : List (String × String) → Option String
  | [] => none
  | t :: ts => if t.1 = k then some t.2 else tagValue k ts

/-- The success hypotheses for the finalizer-release tail of
`reconcileDelete`: the cluster lookup and the two finalizer patches succeed,
and the ConfigMap is either absent (tolerated) or present with a successful
finalizer patch. -/
def happyFinalizers (env : DeleteEnv) : Prop :=
  env.getClusterOut = .ok ∧ env.rfClusterOut = .ok ∧ env.rfTemplateOut = .ok ∧
    (env.cmGetOut = .notFound ∨ (env.cmGetOut = .found ∧ env.rfCmOut = .ok))

/-! ## Helper lemmas -/

theorem applyEvs_append (l1 l2 : List Ev) :
    ∀ roles, applyEvs roles (l1 ++ l2) = applyEvs (applyEvs roles l1) l2 := by
  induction l1 with
  | nil => intro roles; rfl
  | cons e rest ih =>
    intro roles
    cases e <;> simp [applyEvs, ih]

theorem applyEvs_of_countZero (evs : List Ev) :
    countDeleteRole evs = 0 → ∀ roles, applyEvs roles evs = roles := by
  induction evs with
  | nil => intro _ roles; rfl
  | cons e rest ih =>
    intro h roles
    cases e with
    | deleteRole n => simp [countDeleteRole] at h
    | deleteIRSARoles =>
      simp [countDeleteRole] at h ⊢
      exact ih (by simpa [countDeleteRole] using h) roles
    | removeFin o =>
      simp [countDeleteRole] at h ⊢
      exact ih (by simpa [countDeleteRole] using h) roles

theorem countDeleteRole_append (l1 l2 : List Ev) :
    countDeleteRole (l1 ++ l2) = countDeleteRole l1 + countDeleteRole l2 := by
  simp [countDeleteRole, List.filter_append]

theorem reconcileDeleteFinalizers_happy (env : DeleteEnv)
    (hfin : happyFinalizers env) (evs : List Ev) :
    (reconcileDeleteFinalizers env evs).1 = .ok () ∧
    ∃ fins, (reconcileDeleteFinalizers env evs).2 = evs ++ fins ∧
      countDeleteRole fins = 0 ∧ hasRemoveFin fins = true ∧
      Ev.removeFin "template" ∈ fins := by
  obtain ⟨h1, h2, h3, hcm⟩ := hfin
  rcases hcm with hcm | ⟨hcm, hrf⟩
  · refine ⟨?_, [Ev.removeFin "awscluster", Ev.removeFin "template"], ?_, ?_, ?_, ?_⟩ <;>
      simp [reconcileDeleteFinalizers, h1, h2, h3, hcm, countDeleteRole, hasRemoveFin]
  · refine ⟨?_,
      [Ev.removeFin "awscluster", Ev.removeFin "template", Ev.removeFin "configmap"],
      ?_, ?_, ?_, ?_⟩ <;>
      simp [reconcileDeleteFinalizers, h1, h2, h3, hcm, hrf, countDeleteRole, hasRemoveFin]

theorem hasRemoveFin_append (l1 l2 : List Ev) :
    hasRemoveFin (l1 ++ l2) = (hasRemoveFin l1 || hasRemoveFin l2) := by
  simp [hasRemoveFin, List.any_append]

theorem mcpReconcileNormal_no_removeFin (env : MCPEnv) :
    mcpHasRemoveFin (mcpReconcileNormal env).2 = false := by
  unfold mcpReconcileNormal
  rcases env.hasFinalizer with _ | _ <;>
    rcases env.patchHelperOut with _ | m <;>
      rcases env.patchOut with _ | m2 <;>
        rcases env.accountIDOut with _ | m3 <;>
          rcases env.openIDOut with _ | m4 <;>
            rcases env.roleARNOut with _ | m5 <;>
              rcases env.reconcileIRSAOut with _ | m6 <;>
                simp [mcpHasRemoveFin]

theorem mcpReconcileDelete_removeFin_needs_ok (env : MCPEnv) :
    (mcpHasRemoveFin (mcpReconcileDelete env).2 = true → env.deleteIRSAOut = .ok) ∧
    (∀ m, env.deleteIRSAOut = .err m → mcpReconcileDelete env = (.error m, [])) := by
  unfold mcpReconcileDelete
  rcases hdel : env.deleteIRSAOut with _ | m <;>
    rcases env.hasFinalizer with _ | _ <;>
      rcases env.patchHelperOut with _ | m2 <;>
        rcases env.patchOut with _ | m3 <;>
          simp [mcpHasRemoveFin]

/-! ## Claim theorems -/

/-- C10: `GetAWSClusterByName` returns an `AWSCluster` exactly when the
label-selector list for the cluster name yields one item; for zero or
several matches it returns the error `expected 1 AWSCluster but found N`
and no cluster, and a returned cluster is the unique listed item. -/
theorem getAWSClusterByName_unique (items : List AWSCluster) :
    ((∃ c, GetAWSClusterByName (.ok items) = .ok c) ↔ items.length = 1) ∧
    (items.length ≠ 1 →
      GetAWSClusterByName (.ok items) =
        .error ("expected 1 AWSCluster but found " ++ toString items.length)) ∧
    (∀ c, GetAWSClusterByName (.ok items) = .ok c → items = [c]) := by
  refine ⟨⟨?_, ?_⟩, ?_, ?_⟩
  · rintro ⟨c, hc⟩
    by_contra hlen
    simp [GetAWSClusterByName, hlen] at hc
  · intro hlen
    exact ⟨items.get ⟨0, by omega⟩, by simp [GetAWSClusterByName, hlen]⟩
  · intro hlen
    simp [GetAWSClusterByName, hlen]
  · intro c hc
    by_cases hlen : items.length = 1
    · simp [GetAWSClusterByName, hlen] at hc
      match items, hlen with
      | [a], _ => simpa using hc
    · simp [GetAWSClusterByName, hlen] at hc

/-- C10 witness: with two listed clusters the lookup fails with the
counted error message. -/
theorem getAWSClusterByName_unique_witness :
    GetAWSClusterByName (.ok [AWSCluster.mk "a", AWSCluster.mk "b"]) =
      .error ("expected 1 AWSCluster but found " ++
        toString ([AWSCluster.mk "a", AWSCluster.mk "b"].length)) :=
  (getAWSClusterByName_unique [AWSCluster.mk "a", AWSCluster.mk "b"]).2.1 (by decide)

/-- C4: with the finalizer present and a retryable (Invalid) patch failure
on every attempt, `removeFinalizer` performs exactly `maxPatchRetries = 5`
patch attempts with a refetch between consecutive attempts (4 refetches),
surfaces the error, and on no input does it ever exceed the ceiling of 5
attempts. -/
theorem removeFinalizer_bounded_retry (patch : Nat → PatchOutcome)
    (refetch : Nat → Option String)
    (hp : ∀ i, patch i = PatchOutcome.invalid)
    (hr : ∀ i, refetch i = none) :
    maxPatchRetries = 5 ∧
    removeFinalizer true patch refetch =
      ⟨some (.patchFailed .invalid), maxPatchRetries, maxPatchRetries - 1⟩ ∧
    ∀ (c : Bool) (p : Nat → PatchOutcome) (r : Nat → Option String),
      (removeFinalizer c p r).attempts ≤ maxPatchRetries := by
  refine ⟨rfl, ?_, ?_⟩
  · have hpe : patch = fun _ => PatchOutcome.invalid := funext hp
    have hre : refetch = fun _ => (none : Option String) := funext hr
    rw [hpe, hre]
    decide
  · intro c p r
    cases c with
    | false => simp [removeFinalizer]
    | true =>
      have := removeFinalizerLoop_attempts_le p r 1 maxPatchRetries 0 0
      simpa [removeFinalizer] using this

/-- C4 witness: the all-Invalid run at a concrete patch function. -/
theorem removeFinalizer_bounded_retry_witness :
    removeFinalizer true (fun _ => PatchOutcome.invalid) (fun _ => none) =
      ⟨some (.patchFailed .invalid), maxPatchRetries, maxPatchRetries - 1⟩ :=
  (removeFinalizer_bounded_retry (fun _ => PatchOutcome.invalid) (fun _ => none)
    (fun _ => rfl) (fun _ => rfl)).2.1

/-- C5 counterexample: a version-conflict (409) patch failure does *not*
trigger the refetch-and-retry path — with a conflict on every attempt the
coordinator returns the error on the very first attempt with zero
refetches, not after the retry ceiling. -/
theorem removeFinalizer_conflict_returned_immediately :
    removeFinalizer true (fun _ => PatchOutcome.conflict) (fun _ => none) =
      ⟨some (.patchFailed .conflict), 1, 0⟩ ∧
    ¬ ((removeFinalizer true (fun _ => PatchOutcome.conflict)
          (fun _ => none)).attempts = maxPatchRetries) ∧
    ¬ (1 ≤ (removeFinalizer true (fun _ => PatchOutcome.conflict)
          (fun _ => none)).refetches) := by
  decide

/-- C5 (amended): the retryable class is the Invalid (422,
`StatusReasonInvalid`) patch failure — an Invalid failure triggers a refetch
and another attempt, bounded by the ceiling — while every other failure
class, version-conflict included, is returned on the attempt where it
occurs, with no refetch. -/
theorem removeFinalizer_invalid_retries_others_immediate
    (patch : Nat → PatchOutcome) (refetch : Nat → Option String) :
    (∀ i fuel attempts refetches,
        (patch i).isInvalid = false → (patch i).isErr = true →
        removeFinalizerLoop patch refetch i (fuel + 1) attempts refetches =
          ⟨some (.patchFailed (patch i)), attempts + 1, refetches⟩) ∧
    (patch 1 = PatchOutcome.invalid → refetch 1 = none →
      1 ≤ (removeFinalizer true patch refetch).refetches) ∧
    (∀ c, (removeFinalizer c patch refetch).attempts ≤ maxPatchRetries) := by
  refine ⟨?_, ?_, ?_⟩
  · intro i fuel attempts refetches hinv herr
    simp [removeFinalizerLoop, hinv, herr]
  · intro hp hr
    have h1 : removeFinalizer true patch refetch =
        removeFinalizerLoop patch refetch 2 4 1 1 := by
      simp [removeFinalizer, removeFinalizerLoop, maxPatchRetries, hp, hr,
        PatchOutcome.isInvalid]
    rw [h1]
    exact removeFinalizerLoop_refetches_ge patch refetch 2 4 1 1
  · intro c
    cases c with
    | false => simp [removeFinalizer]
    | true =>
      have := removeFinalizerLoop_attempts_le patch refetch 1 maxPatchRetries 0 0
      simpa [removeFinalizer] using this

/-- C5 (amended) witness: a conflict on the first attempt is surfaced at
that attempt with no refetch. -/
theorem removeFinalizer_invalid_retries_others_immediate_witness :
    removeFinalizerLoop (fun _ => PatchOutcome.conflict) (fun _ => none) 1 5 0 0 =
      ⟨some (.patchFailed (PatchOutcome.conflict)), 1, 0⟩ :=
  (removeFinalizer_invalid_retries_others_immediate
    (fun _ => PatchOutcome.conflict) (fun _ => none)).1 1 4 0 0 (by decide) (by decide)

/-- C7: when `.Spec.RoleName` is nil (issuer domain not determinable,
control-plane not ready), the managed-control-plane reconcile creates no
IRSA role and performs no IAM mutation; it returns success with a requeue
after one minute. -/
theorem mcpReconcile_requeues_without_roleName (env : MCPEnv)
    (hget : env.getOut = .found)
    (hid : ∃ s, env.clusterIDOut = .ok s)
    (hwatch : env.hasWatchLabel = true)
    (hrole : env.roleName = none) :
    mcpReconcile env = (.ok ⟨true, 60⟩, []) := by
  obtain ⟨s, hs⟩ := hid
  simp [mcpReconcile, hget, hs, hwatch, hrole]

/-- C7 witness: a concrete not-yet-ready control plane requeues after one
minute with no IAM action. -/
theorem mcpReconcile_requeues_without_roleName_witness :
    mcpReconcile ⟨.found, .ok "test-cluster", true, none, .ok, .ok, .ok, .ok,
        false, .ok, false, .ok, .ok, .ok, .ok, .ok, .ok⟩ =
      (.ok ⟨true, 60⟩, []) :=
  mcpReconcile_requeues_without_roleName _ rfl ⟨"test-cluster", rfl⟩ rfl rfl

/-- The cluster-ownership marker key never collides with the ownership
marker key (their lengths differ). -/
theorem clusterOwnedTagKey_ne_ownedTagKey (cn : String) :
    clusterOwnedTagKey cn ≠ ownedTagKey := by
  intro h
  have hlen := congrArg String.length h
  rw [clusterOwnedTagKey, String.length_append] at hlen
  have h1 : ("sigs.k8s.io/cluster-api-provider-aws/cluster/" : String).length = 45 := rfl
  have h2 : (ownedTagKey : String).length = 25 := rfl
  rw [h1, h2] at hlen
  omega

/-- C9: the applied tag set is exactly the ownership marker
(`capi-iam-controller/owned` ↦ `""`), the cluster-ownership marker
(key derived from the cluster name ↦ `owned`) and the caller-supplied
custom tags, and a custom tag colliding with a reserved marker key never
overrides the reserved value. -/
theorem iamTags_union_reserved (clusterName : String)
    (customTags : List (String × String)) :
    tagValue ownedTagKey (iamTags clusterName customTags) = some "" ∧
    tagValue (clusterOwnedTagKey clusterName) (iamTags clusterName customTags) =
      some "owned" ∧
    ∀ t, t ∈ iamTags clusterName customTags ↔
      (t = (ownedTagKey, "") ∨ t = (clusterOwnedTagKey clusterName, "owned") ∨
        (t ∈ customTags ∧ t.1 ≠ ownedTagKey ∧
          t.1 ≠ clusterOwnedTagKey clusterName)) := by
  refine ⟨?_, ?_, ?_⟩
  · simp [tagValue, iamTags]
  · simp [tagValue, iamTags, Ne.symm (clusterOwnedTagKey_ne_ownedTagKey clusterName)]
  · intro t
    simp [iamTags, List.mem_filter]

/-- C9 witness: a custom tag colliding with the ownership marker key does
not override the reserved empty value. -/
theorem iamTags_union_reserved_witness :
    tagValue ownedTagKey
        (iamTags "test-cluster" [(ownedTagKey, "evil"), ("team", "a")]) = some "" ∧
    tagValue (clusterOwnedTagKey "test-cluster")
        (iamTags "test-cluster" [(ownedTagKey, "evil"), ("team", "a")]) =
      some "owned" :=
  ⟨(iamTags_union_reserved "test-cluster" [(ownedTagKey, "evil"), ("team", "a")]).1,
   (iamTags_union_reserved "test-cluster" [(ownedTagKey, "evil"), ("team", "a")]).2.1⟩

/-- C2: on an issuer-domain rotation (a previous issuer is recorded and
differs from the current one), the trust mutations are: first ensure the
new issuer is trusted, only then remove the old issuer's statement; along
the whole observed trace the trust set always contains the old or the new
issuer, and at the moment of removal the new issuer is already trusted. -/
theorem irsa_rotation_make_before_break (s0 : List String) (current old : String)
    (hold : old ∈ s0) (hne : old ≠ current) :
    (∀ s ∈ trustStates s0 (ReconcileRolesForIRSA current (some old)),
        old ∈ s ∨ current ∈ s) ∧
    ReconcileRolesForIRSA current (some old) =
      [TrustOp.ensureIssuer current, TrustOp.removeIssuer old] ∧
    current ∈ applyTrustOp s0 (TrustOp.ensureIssuer current) := by
  have hops : ReconcileRolesForIRSA current (some old) =
      [TrustOp.ensureIssuer current, TrustOp.removeIssuer old] := by
    simp [ReconcileRolesForIRSA, hne]
  have hcur : current ∈ applyTrustOp s0 (TrustOp.ensureIssuer current) := by
    simp only [applyTrustOp]
    split
    · assumption
    · exact List.mem_cons_self current s0
  refine ⟨?_, hops, hcur⟩
  intro s hs
  rw [hops] at hs
  simp only [trustStates, List.scanl, List.mem_cons, List.not_mem_nil, or_false] at hs
  rcases hs with h | h | h
  · subst h; exact Or.inl hold
  · subst h; exact Or.inr hcur
  · subst h
    refine Or.inr ?_
    simp only [applyTrustOp, List.mem_filter]
    exact ⟨hcur, by simpa using Ne.symm hne⟩

/-- C2 witness: the rotation from `old.example.com` to `new.example.com`
ensures the new issuer before removing the old one, and after the ensure
step the trust set already contains the new issuer. -/
theorem irsa_rotation_make_before_break_witness :
    ReconcileRolesForIRSA "new.example.com" (some "old.example.com") =
      [TrustOp.ensureIssuer "new.example.com",
        TrustOp.removeIssuer "old.example.com"] ∧
    "new.example.com" ∈
      applyTrustOp ["old.example.com"] (TrustOp.ensureIssuer "new.example.com") :=
  ⟨(irsa_rotation_make_before_break ["old.example.com"] "new.example.com"
      "old.example.com" (by decide) (by decide)).2.1,
   (irsa_rotation_make_before_break ["old.example.com"] "new.example.com"
      "old.example.com" (by decide) (by decide)).2.2⟩

/-- C6 (code bug, pinned by the controller test): in the Secret-reconciler
IRSA ensure path the role is created with the desired trust document — so
the observed trust policy equals the desired one — and the call sequence
nonetheless contains a mutating `UpdateAssumeRolePolicy` with that same
document, contradicting "update only when the observed trust differs". -/
theorem secretEnsureRole_updates_trust_unconditionally :
    IAMCall.createRole "cert-manager-app-test-cluster-Role" "trust-doc" ∈
      secretEnsureRoleCalls "cert-manager-app-test-cluster-Role" "trust-doc"
        "irsa-role-test-cluster-policy" "policy-doc" ∧
    IAMCall.updateAssumeRolePolicy "cert-manager-app-test-cluster-Role" "trust-doc" ∈
      secretEnsureRoleCalls "cert-manager-app-test-cluster-Role" "trust-doc"
        "irsa-role-test-cluster-policy" "policy-doc" ∧
    (IAMCall.updateAssumeRolePolicy "cert-manager-app-test-cluster-Role"
        "trust-doc").isMutating = true := by
  decide

/-- C8: a NotFound during deletion is success — an absent cluster-values
ConfigMap yields a nil reconcile error, and the modelled `DeleteRole`
teardown treats not-found at each of its three steps as success. -/
theorem notFound_treated_as_success (env : DeleteEnv) (profile : String)
    (h1 : env.getClusterOut = .ok) (h2 : env.rfClusterOut = .ok)
    (h3 : env.rfTemplateOut = .ok) (h4 : env.deleteRoleOut = .ok)
    (h5 : env.deleteIRSAOut = .ok) (hcm : env.cmGetOut = .notFound) :
    (reconcileDelete env profile).1 = .ok () ∧
    (∀ a b c : RemoteRes, a.isFailure = false → b.isFailure = false →
        c.isFailure = false → DeleteRole a b c = .ok ()) ∧
    DeleteRole .notFound .notFound .notFound = .ok () := by
  have hfin : happyFinalizers env := ⟨h1, h2, h3, Or.inl hcm⟩
  have hhappy := reconcileDeleteFinalizers_happy env hfin
  refine ⟨?_, ?_, rfl⟩
  · unfold reconcileDelete
    simp only [h4, h5]
    split
    · exact (hhappy []).1
    · split
      · exact (hhappy _).1
      · exact (hhappy _).1
  · intro a b c ha hb hc
    cases a <;> cases b <;> cases c <;>
      simp_all [DeleteRole, teardownStep, RemoteRes.isFailure]

/-- C8 witness: a concrete deletion with the ConfigMap absent succeeds, as
does the all-not-found teardown. -/
theorem notFound_treated_as_success_witness :
    (reconcileDelete ⟨[], BastionRole, false, .ok, .ok, .ok, .ok, .ok,
        .notFound, .ok⟩ "profile").1 = .ok () ∧
    DeleteRole .notFound .notFound .notFound = .ok () :=
  ⟨(notFound_treated_as_success ⟨[], BastionRole, false, .ok, .ok, .ok, .ok, .ok,
      .notFound, .ok⟩ "profile" rfl rfl rfl rfl rfl rfl).1,
   (notFound_treated_as_success ⟨[], BastionRole, false, .ok, .ok, .ok, .ok, .ok,
      .notFound, .ok⟩ "profile" rfl rfl rfl rfl rfl rfl).2.2⟩

/-- C1: deleting an `AWSMachineTemplate` whose instance-profile role is
still referenced by another tracked object issues no `DeleteRole` (the
remote role set is unchanged), still removes the finalizers and returns
success; with no other reference, `DeleteRole` is the very first event,
before any finalizer removal; deleting both referencing objects in
sequence deletes the role exactly once and removes it from the remote
state. -/
theorem sharedRole_deleted_exactly_once
    (envA envB : DeleteEnv) (p : String) (roles : List String)
    (hA : isRoleUsedElsewhere envA.otherProfiles p = true)
    (hB : isRoleUsedElsewhere envB.otherProfiles p = false)
    (hAfin : happyFinalizers envA) (hBfin : happyFinalizers envB)
    (hBdel : envB.deleteRoleOut = .ok) (hBirsa : envB.deleteIRSAOut = .ok) :
    ((reconcileDelete envA p).1 = .ok () ∧
      countDeleteRole (reconcileDelete envA p).2 = 0 ∧
      applyEvs roles (reconcileDelete envA p).2 = roles ∧
      Ev.removeFin "template" ∈ (reconcileDelete envA p).2) ∧
    (reconcileDelete envB p).2.head? = some (Ev.deleteRole p) ∧
    countDeleteRole ((reconcileDelete envA p).2 ++ (reconcileDelete envB p).2) = 1 ∧
    applyEvs roles ((reconcileDelete envA p).2 ++ (reconcileDelete envB p).2) =
      roles.filter (· ≠ p) := by
  have hAeq : reconcileDelete envA p = reconcileDeleteFinalizers envA [] := by
    simp [reconcileDelete, hA]
  obtain ⟨hAok, finsA, hAevs, hAcount, _, hAmem⟩ :=
    reconcileDeleteFinalizers_happy envA hAfin []
  have hAevs' : (reconcileDelete envA p).2 = finsA := by
    rw [hAeq, hAevs]; simp
  have hBshape : ∃ tail, (reconcileDelete envB p).2 = Ev.deleteRole p :: tail ∧
      countDeleteRole tail = 0 := by
    by_cases hcp : envB.roleType = ControlPlaneRole ∧ envB.enableRoute53 = true
    · have hBeq : reconcileDelete envB p =
          reconcileDeleteFinalizers envB [Ev.deleteRole p, Ev.deleteIRSARoles] := by
        simp [reconcileDelete, hB, hBdel, hBirsa, hcp]
      obtain ⟨_, finsB, hBevs, hBcount, _, _⟩ :=
        reconcileDeleteFinalizers_happy envB hBfin [Ev.deleteRole p, Ev.deleteIRSARoles]
      refine ⟨Ev.deleteIRSARoles :: finsB, ?_, ?_⟩
      · rw [hBeq, hBevs]; simp
      · simpa [countDeleteRole] using hBcount
    · have hBeq : reconcileDelete envB p =
          reconcileDeleteFinalizers envB [Ev.deleteRole p] := by
        simp [reconcileDelete, hB, hBdel, hcp]
      obtain ⟨_, finsB, hBevs, hBcount, _, _⟩ :=
        reconcileDeleteFinalizers_happy envB hBfin [Ev.deleteRole p]
      refine ⟨finsB, ?_, hBcount⟩
      rw [hBeq, hBevs]; simp
  obtain ⟨tailB, hBevs', hBtail⟩ := hBshape
  have hBcount1 : countDeleteRole (reconcileDelete envB p).2 = 1 := by
    rw [hBevs']
    simpa [countDeleteRole] using hBtail
  refine ⟨⟨?_, ?_, ?_, ?_⟩, ?_, ?_, ?_⟩
  · rw [hAeq]; exact hAok
  · rw [hAevs']; exact hAcount
  · rw [hAevs']; exact applyEvs_of_countZero finsA hAcount roles
  · rw [hAevs']; exact hAmem
  · rw [hBevs']; rfl
  · rw [countDeleteRole_append, hBcount1, hAevs', hAcount]
  · rw [applyEvs_append, hAevs', applyEvs_of_countZero finsA hAcount roles, hBevs']
    show applyEvs (roles.filter (· ≠ p)) tailB = roles.filter (· ≠ p)
    exact applyEvs_of_countZero tailB hBtail _

/-- C1 witness: two objects sharing profile `p`; deleting the first while
the second exists leaves the remote role, deleting the second removes it. -/
theorem sharedRole_deleted_exactly_once_witness :
    applyEvs ["p"]
      ((reconcileDelete ⟨["p"], BastionRole, false, .ok, .ok, .ok, .ok, .ok,
          .notFound, .ok⟩ "p").2 ++
        (reconcileDelete ⟨[], BastionRole, false, .ok, .ok, .ok, .ok, .ok,
          .notFound, .ok⟩ "p").2) = ["p"].filter (· ≠ "p") :=
  (sharedRole_deleted_exactly_once
    ⟨["p"], BastionRole, false, .ok, .ok, .ok, .ok, .ok, .notFound, .ok⟩
    ⟨[], BastionRole, false, .ok, .ok, .ok, .ok, .ok, .notFound, .ok⟩
    "p" ["p"] (by decide) (by decide)
    ⟨rfl, rfl, rfl, Or.inl rfl⟩ ⟨rfl, rfl, rfl, Or.inl rfl⟩ rfl rfl).2.2.2

/-- C3: on every reconcile path a finalizer-removal event happens only if
the guard confirmed the role shared or the remote teardown calls all
succeeded, and a teardown error is surfaced with no finalizer removed —
for the machine-template reconciler and for the managed-control-plane
deletion branch alike. -/
theorem finalizer_release_guarded (env : DeleteEnv) (p : String) (menv : MCPEnv) :
    (hasRemoveFin (reconcileDelete env p).2 = true →
        isRoleUsedElsewhere env.otherProfiles p = true ∨
          (env.deleteRoleOut = .ok ∧
            ((env.roleType = ControlPlaneRole ∧ env.enableRoute53 = true) →
              env.deleteIRSAOut = .ok))) ∧
    (∀ m, isRoleUsedElsewhere env.otherProfiles p = false →
        env.deleteRoleOut = .err m →
        (reconcileDelete env p).1 = .error m ∧
          hasRemoveFin (reconcileDelete env p).2 = false) ∧
    (∀ m, isRoleUsedElsewhere env.otherProfiles p = false →
        env.deleteRoleOut = .ok →
        (env.roleType = ControlPlaneRole ∧ env.enableRoute53 = true) →
        env.deleteIRSAOut = .err m →
        (reconcileDelete env p).1 = .error m ∧
          hasRemoveFin (reconcileDelete env p).2 = false) ∧
    (mcpHasRemoveFin (mcpReconcile menv).2 = true → menv.deleteIRSAOut = .ok) ∧
    (∀ m, menv.deleteIRSAOut = .err m → mcpReconcileDelete menv = (.error m, [])) := by
  refine ⟨?_, ?_, ?_, ?_, ?_⟩
  · intro hrem
    by_cases hu : isRoleUsedElsewhere env.otherProfiles p = true
    · exact Or.inl hu
    · have hu' : isRoleUsedElsewhere env.otherProfiles p = false := by
        simpa using hu
      right
      rcases hdel : env.deleteRoleOut with _ | m
      · refine ⟨rfl, ?_⟩
        intro hcp
        rcases hirsa : env.deleteIRSAOut with _ | m2
        · rfl
        · exfalso
          rw [show (reconcileDelete env p).2 = [Ev.deleteRole p] by
            simp [reconcileDelete, hu', hdel, hcp, hirsa]] at hrem
          simp [hasRemoveFin] at hrem
      · exfalso
        rw [show (reconcileDelete env p).2 = [] by
          simp [reconcileDelete, hu', hdel]] at hrem
        simp [hasRemoveFin] at hrem
  · intro m hu hdel
    constructor <;> simp [reconcileDelete, hu, hdel, hasRemoveFin]
  · intro m hu hdel hcp hirsa
    constructor <;> simp [reconcileDelete, hu, hdel, hcp, hirsa, hasRemoveFin]
  · intro hrem
    unfold mcpReconcile at hrem
    split at hrem
    · simp [mcpHasRemoveFin] at hrem
    · simp [mcpHasRemoveFin] at hrem
    · split at hrem
      · simp [mcpHasRemoveFin] at hrem
      · split at hrem
        · split at hrem
          · simp [mcpHasRemoveFin] at hrem
          · split at hrem
            · simp [mcpHasRemoveFin] at hrem
            · split at hrem
              · simp [mcpHasRemoveFin] at hrem
              · split at hrem
                · simp [mcpHasRemoveFin] at hrem
                · split at hrem
                  · simp [mcpHasRemoveFin] at hrem
                  · split at hrem
                    · exact (mcpReconcileDelete_removeFin_needs_ok menv).1 hrem
                    · rw [mcpReconcileNormal_no_removeFin] at hrem
                      exact absurd hrem (by simp)
        · simp [mcpHasRemoveFin] at hrem
  · exact fun m hm => (mcpReconcileDelete_removeFin_needs_ok menv).2 m hm

/-- C3 witness: a failing `DeleteRole` on an unshared role surfaces the
error with no finalizer-removal event. -/
theorem finalizer_release_guarded_witness :
    (reconcileDelete ⟨[], BastionRole, false, .err "boom", .ok, .ok, .ok, .ok,
        .notFound, .ok⟩ "p").1 = .error "boom" ∧
    hasRemoveFin (reconcileDelete ⟨[], BastionRole, false, .err "boom", .ok,
        .ok, .ok, .ok, .notFound, .ok⟩ "p").2 = false :=
  (finalizer_release_guarded
    ⟨[], BastionRole, false, .err "boom", .ok, .ok, .ok, .ok, .notFound, .ok⟩ "p"
    ⟨.found, .ok "c", true, some "r", .ok, .ok, .ok, .ok, true, .ok, true, .ok,
      .ok, .ok, .ok, .ok, .ok⟩).2.1 "boom" (by decide) rfl

end CapaIam
